import Mathlib

/-!
Shallow embedding of the provider-event reconciliation engine of the
TroubleshootModal component (`src/ui/src/components/sync`, part_005 of the
sources): the group computation (`groups` useMemo), its lookup structures
(`providerEventCounts`, `orbitMembershipCounts`, `flowByOrbit`), the
per-record direction resolution, and the link/unlink mutation coordinator.

Modelling conventions:
* ISO-8601 timestamp strings are pre-parsed: a field of type `Option Int`
  is `none` when the JS value is `null`/`undefined` or when `Date.parse`
  returns `NaN`, and `some n` when `Date.parse` returns the millisecond
  value `n` (possibly negative, for dates before 1970).
* JS `Map` objects (which iterate in insertion order, and update an
  existing key in place) are association lists with `mapGet` and `mapSet`.
* `Array.prototype.sort` with a consistent comparator `cmp` is a stable
  sort, hence equals `List.mergeSort` with `le a b := cmp a b ≤ 0`.
* `formatProviderName` lives in `src/ui/src/lib/providers.ts`, which is
  not among the provided sources; it and the locale-dependent
  `String.prototype.localeCompare` comparison are abstract parameters of
  the pipeline (`fmt` and `nameLe` below). No theorem depends on their
  behaviour.
-/

namespace Orbit

/-- `ProviderEventRecord` from `src/ui/src/types/api.ts`, restricted to the
fields the reconciliation code reads (`end`, `categories`, `provider_id`,
`provider_name` and `provider_last_seen` are only rendered, never used by
the group computation). -/
structure ProviderEventRecord where
  orbit_event_id : Option String
  provider_event_id : String
  title : String
  start : Option Int
  last_updated : Option Int
  tombstoned : Bool
deriving DecidableEq, Repr, Inhabited

/-- `SyncEventSummary` (a flow record) restricted to the fields the
reconciliation code reads. -/
structure SyncEventSummary where
  id : String
  title : String
  occurred_at : Option Int
  source_provider_id : Option String
  target_provider_id : Option String
deriving DecidableEq, Repr, Inhabited

/-- `Provider`, restricted to the fields the reconciliation code reads. -/
structure Provider where
  id : String
  name : String
deriving DecidableEq, Repr, Inhabited

/-- `SyncEndpointSummary`, restricted to the fields the reconciliation code
reads. -/
structure SyncEndpointSummary where
  provider_id : String
  provider_name : String
deriving DecidableEq, Repr, Inhabited

/-- A row of `allRecords`: the `(providerId, record)` pair pushed for each
record of each provider panel. -/
abbrev Row := String × ProviderEventRecord

/-- Lookup in a JS `Map` modelled as an association list. -/
def mapGet (m : List (String × α)) (k : String) : Option α :=
  (m.find? (fun p => p.1 = k)).map (·.2)

/-- `Map.prototype.set`: update the first entry with the given key in
place, or append a fresh entry at the end (JS maps iterate in insertion
order). -/
def mapSet (m : List (String × α)) (k : String) (v : α) : List (String × α) :=
  match m with
  | [] => [(k, v)]
  | (k', v') :: rest => if k' = k then (k, v) :: rest else (k', v') :: mapSet rest k v

/-- `parseTimestamp` (part_005, lines 1172-1178): `null`/`undefined` and
unparseable strings become `0`, else the parsed millisecond value. -/
def parseTimestamp : Option Int → Int
  | none => 0
  | some n => n

/-- The string key `providerId::provider_event_id` used by
`providerEventCounts`. -/
def rowKey (providerId : String) (r : ProviderEventRecord) : String :=
  providerId ++ "::" ++ r.provider_event_id

/-- `providerEventCounts` (part_005, lines 637-644): per string key, the
number of fetched records with that key. -/
def providerEventCounts (rows : List Row) : List (String × Nat) :=
  rows.foldl
    (fun counts row =>
      let key := rowKey row.1 row.2
      mapSet counts key ((mapGet counts key).getD 0 + 1))
    []

/-- The membership sets underlying `orbitMembershipCounts` (part_005,
lines 646-659): orbit event id to the set of provider ids observed for it,
a JS `Set` being a duplicate-free list in insertion order. -/
def orbitMembershipSets (rows : List Row) : List (String × List String) :=
  rows.foldl
    (fun m row =>
      match row.2.orbit_event_id with
      | none => m
      | some oid =>
        let s := (mapGet m oid).getD []
        mapSet m oid (if row.1 ∈ s then s else s ++ [row.1]))
    []

/-- `orbitMembershipCounts`: the sizes of the membership sets. -/
def orbitMembershipCounts (rows : List Row) : List (String × Nat) :=
  (orbitMembershipSets rows).map (fun p => (p.1, p.2.length))

/-- `flowByOrbit` (part_005, lines 613-619): flow events keyed by id,
last write wins. -/
def flowByOrbit (flowEvents : List SyncEventSummary) : List (String × SyncEventSummary) :=
  flowEvents.foldl (fun m ev => mapSet m ev.id ev) []

/-- `endpointsByProvider` (part_005, lines 490-496). -/
def endpointsByProvider (endpoints : List SyncEndpointSummary) :
    List (String × SyncEndpointSummary) :=
  endpoints.foldl (fun m e => mapSet m e.provider_id e) []

/-- `providerLookup` (part_005, lines 480-486). -/
def providerLookup (providers : List Provider) : List (String × Provider) :=
  providers.foldl (fun m p => mapSet m p.id p) []

/-- The direction label of a group member. -/
inductive DirectionLabel where
  | Inbound
  | Outbound
  | Unmapped
deriving DecidableEq, Repr, Inhabited

/-- `GroupMember` (part_005, lines 428-439). -/
structure GroupMember where
  key : String
  providerId : String
  providerName : String
  endpoint : Option SyncEndpointSummary
  record : ProviderEventRecord
  directionLabel : DirectionLabel
  directionText : String
  duplicateCount : Nat
  orbitLinkCount : Nat
  tombstoned : Bool
deriving DecidableEq, Repr, Inhabited

/-- `TroubleshootGroup` (part_005, lines 441-451). -/
structure TroubleshootGroup where
  key : String
  orbitEventId : Option String
  title : String
  start : Option Int
  orbitOccurredAt : Option Int
  suspectCollision : Bool
  providerCount : Nat
  latestTimestamp : Int
  members : List GroupMember
deriving DecidableEq, Repr, Inhabited

/-- The inputs the `groups` computation closes over: the three lookup maps
plus the two external functions (`formatProviderName`, whose source file is
not provided, and the `localeCompare`-based member comparator, locale
dependent), kept abstract. -/
structure GroupCtx where
  flowMap : List (String × SyncEventSummary)
  endpointMap : List (String × SyncEndpointSummary)
  providerMap : List (String × Provider)
  fmt : String → String
  nameLe : String → String → Bool

/-- The group key of a record (part_005, line 666):
`record.orbit_event_id ?? unlinked:providerId:provider_event_id`. -/
def rowGroupKey (row : Row) : String :=
  match row.2.orbit_event_id with
  | some oid => oid
  | none => "unlinked:" ++ row.1 ++ ":" ++ row.2.provider_event_id

/-- The flow record matched to a record: `flowByOrbit.get(orbit_event_id)`
when the record is linked, else nothing. -/
def rowFlow (flowMap : List (String × SyncEventSummary)) (r : ProviderEventRecord) :
    Option SyncEventSummary :=
  r.orbit_event_id.bind (mapGet flowMap)

/-- The activity stamp a record contributes to its group (part_005,
lines 678-693): `Math.max` of the parsed `last_updated`, `start` and
matched flow `occurred_at`. -/
def rowStamp (flowMap : List (String × SyncEventSummary)) (r : ProviderEventRecord) : Int :=
  max (parseTimestamp r.last_updated)
    (max (parseTimestamp r.start)
      (parseTimestamp ((rowFlow flowMap r).bind (·.occurred_at))))

/-- The counterpart display-name resolution shared by both direction
branches (part_005, lines 705-709 and 713-717):
`formatProviderName(endpoint?.provider_name ?? providerLookup[id]?.name ?? id) || id`. -/
def counterpartNameFor (ctx : GroupCtx) (pid : String) : String :=
  let viaEndpoint := (mapGet ctx.endpointMap pid).map (·.provider_name)
  let viaProvider := (mapGet ctx.providerMap pid).map (·.name)
  let base := ctx.fmt (viaEndpoint.getD (viaProvider.getD pid))
  if base = "" then pid else base

/-- The direction resolution of part_005, lines 700-720, extracted verbatim
as a function of the acting provider id and the matched flow record. The
guards `if (flow.target_provider_id)` and `if (flow.source_provider_id)`
are JS truthiness tests, false for the empty string as well. -/
def resolveDirection (ctx : GroupCtx) (providerId : String) (flow : Option SyncEventSummary) :
    DirectionLabel × Option String :=
  match flow with
  | none => (DirectionLabel.Unmapped, none)
  | some f =>
    if f.source_provider_id = some providerId then
      (DirectionLabel.Outbound,
        match f.target_provider_id with
        | some tid => if tid = "" then none else some (counterpartNameFor ctx tid)
        | none => none)
    else if f.target_provider_id = some providerId then
      (DirectionLabel.Inbound,
        match f.source_provider_id with
        | some sid => if sid = "" then none else some (counterpartNameFor ctx sid)
        | none => none)
    else (DirectionLabel.Unmapped, none)

/-- `directionText` (part_005, lines 730-739); the `counterpartName ? _ : _`
ternaries are truthiness tests, so an empty counterpart falls back to the
bare label. -/
def directionTextFor (label : DirectionLabel) (counterpart : Option String) : String :=
  match label with
  | DirectionLabel.Unmapped => "Unmapped"
  | DirectionLabel.Outbound =>
    match counterpart with
    | some c => if c = "" then "Outbound" else "Outbound → " ++ c
    | none => "Outbound"
  | DirectionLabel.Inbound =>
    match counterpart with
    | some c => if c = "" then "Inbound" else "Inbound ← " ++ c
    | none => "Inbound"

/-- The `GroupMember` built for one record (part_005, lines 696-752). -/
def buildMember (ctx : GroupCtx) (counts : List (String × Nat))
    (orbitCounts : List (String × Nat)) (providerId : String)
    (r : ProviderEventRecord) : GroupMember :=
  let endpoint := mapGet ctx.endpointMap providerId
  let provider := mapGet ctx.providerMap providerId
  let flow := rowFlow ctx.flowMap r
  let dir := resolveDirection ctx providerId flow
  let duplicateCount := (mapGet counts (rowKey providerId r)).getD 0
  let orbitLinkCount :=
    match r.orbit_event_id with
    | some oid => (mapGet orbitCounts oid).getD 0
    | none => 0
  let providerName0 :=
    ctx.fmt ((provider.map (·.name)).getD ((endpoint.map (·.provider_name)).getD providerId))
  let providerName := if providerName0 = "" then providerId else providerName0
  { key := providerId ++ "-" ++ r.provider_event_id ++ "-" ++ (r.orbit_event_id.getD "unlinked")
    providerId := providerId
    providerName := providerName
    endpoint := endpoint
    record := r
    directionLabel := dir.1
    directionText := directionTextFor dir.1 dir.2
    duplicateCount := duplicateCount
    orbitLinkCount := orbitLinkCount
    tombstoned := r.tombstoned }

/-- One iteration of the `allRecords.forEach` body of the `groups` useMemo
(part_005, lines 665-753): get or create the group for the record key,
update `latestTimestamp`, and push the member. -/
def insertRow (ctx : GroupCtx) (counts : List (String × Nat))
    (orbitCounts : List (String × Nat)) (m : List (String × TroubleshootGroup))
    (row : Row) : List (String × TroubleshootGroup) :=
  let providerId := row.1
  let r := row.2
  let groupKey := rowGroupKey row
  let member := buildMember ctx counts orbitCounts providerId r
  match mapGet m groupKey with
  | none =>
    let flow := rowFlow ctx.flowMap r
    mapSet m groupKey
      { key := groupKey
        orbitEventId := r.orbit_event_id
        title := r.title
        start := r.start
        orbitOccurredAt := flow.bind (·.occurred_at)
        suspectCollision := false
        providerCount := 0
        latestTimestamp := rowStamp ctx.flowMap r
        members := [member] }
  | some g =>
    mapSet m groupKey
      { g with
        latestTimestamp := max g.latestTimestamp (rowStamp ctx.flowMap r)
        members := g.members ++ [member] }

/-- The per-group finalisation of part_005, lines 755-770: sort members by
provider display name, count distinct providers, and derive
`suspectCollision`. -/
def finalizeGroup (nameLe : String → String → Bool) (g : TroubleshootGroup) :
    TroubleshootGroup :=
  let sortedMembers := g.members.mergeSort (fun a b => nameLe a.providerName b.providerName)
  let providerSet := (sortedMembers.map (·.providerId)).dedup
  let hasDuplicates := sortedMembers.any (fun mem => mem.duplicateCount > 1)
  { key := g.key
    orbitEventId := g.orbitEventId
    title := g.title
    start := g.start
    orbitOccurredAt := g.orbitOccurredAt
    suspectCollision := decide (sortedMembers.length > 1) || hasDuplicates
    providerCount := providerSet.length
    latestTimestamp := g.latestTimestamp
    members := sortedMembers }

/-- The final comparator of part_005, lines 771-776. -/
def groupCmp (a b : TroubleshootGroup) : Int :=
  if a.suspectCollision ≠ b.suspectCollision then
    (if a.suspectCollision then -1 else 1)
  else b.latestTimestamp - a.latestTimestamp

/-- `Array.prototype.sort` order: `a` may stay before `b` iff
`groupCmp a b ≤ 0`. -/
def groupLe (a b : TroubleshootGroup) : Bool := groupCmp a b ≤ 0

/-- The group list before the final ordering pass: build the map over all
records, take its values in insertion order, finalise each group. -/
def groupsPreSort (ctx : GroupCtx) (rows : List Row) : List TroubleshootGroup :=
  let counts := providerEventCounts rows
  let orbitCounts := orbitMembershipCounts rows
  let m := rows.foldl (insertRow ctx counts orbitCounts) []
  (m.map (·.2)).map (finalizeGroup ctx.nameLe)

/-- The full `groups` useMemo of part_005, lines 661-777. -/
def groups (ctx : GroupCtx) (rows : List Row) : List TroubleshootGroup :=
  (groupsPreSort ctx rows).mergeSort groupLe

/-- The `(providerId, record)` pair a member was built from. -/
def memberRow (mem : GroupMember) : Row := (mem.providerId, mem.record)

/-! ## Provider panel fetch state (part_005, lines 416-420 and 545-635)

Per-provider fetches fan out independently; each settlement updates only
its own panel entry. -/

/-- `ProviderPanelState` (part_005, lines 416-420). -/
structure ProviderPanelState where
  data : List ProviderEventRecord
  loading : Bool
  error : Option String
deriving DecidableEq, Repr, Inhabited

/-- The `providerEvents` record, keyed by provider id. -/
abbrev Panels := List (String × ProviderPanelState)

/-- The data currently held for a provider: `prev[id]?.data ?? []`. -/
def panelData (ps : Panels) (providerId : String) : List ProviderEventRecord :=
  ((mapGet ps providerId).map (·.data)).getD []

/-- The synchronous prologue of the fetch effect (part_005, lines 553-562):
every configured provider panel is marked loading, its previous data kept. -/
def beginRefresh (providerIds : List String) (ps : Panels) : Panels :=
  providerIds.foldl
    (fun acc id => mapSet acc id { data := panelData acc id, loading := true, error := none })
    ps

/-- A successful per-provider fetch settlement (part_005, lines 579-588). -/
def applyFetchSuccess (ps : Panels) (providerId : String)
    (events : List ProviderEventRecord) : Panels :=
  mapSet ps providerId { data := events, loading := false, error := none }

/-- A failed per-provider fetch settlement (part_005, lines 589-600): the
panel keeps its previous data and records the error message. -/
def applyFetchFailure (ps : Panels) (providerId : String) (msg : String) : Panels :=
  mapSet ps providerId { data := panelData ps providerId, loading := false, error := some msg }

/-- `allRecords` (part_005, lines 626-635): the flat `(providerId, record)`
snapshot over which the group computation runs. -/
def allRecords (providerIds : List String) (ps : Panels) : List Row :=
  providerIds.flatMap (fun id => (panelData ps id).map (fun r => (id, r)))

/-- The error entries contributed by provider panels to the combined error
list (part_005, lines 799-805). -/
def providerErrors (providerIds : List String) (ps : Panels) : List String :=
  providerIds.filterMap (fun id => (mapGet ps id).bind (·.error))

/-! ## Mutation coordinator (part_005, lines 475-478 and 819-883)

The in-flight bookkeeping is the single `actionState` slot
(`{type, key} | null`); the per-member Unlink and Save buttons are disabled
while `isActionLoading(type, actionKey)` holds, so a click on them is then
a no-op. The `async` handlers are split at their `await`: the `click*`
events run the synchronous prefix (which issues the network call) and the
`settle*` events run the continuation for a success or failure outcome.
`callLog`/`settleLog` record issued calls and processed settlements so that
in-flight requests are observable in traces. -/

/-- The `type` field of `actionState`. -/
inductive ActionType where
  | link
  | unlink
deriving DecidableEq, Repr, Inhabited

/-- `LinkEditorState` (part_005, lines 422-426). -/
structure LinkEditorState where
  providerId : String
  providerEventId : String
  currentOrbitId : Option String
deriving DecidableEq, Repr, Inhabited

/-- An entry of `orbitOptions` (part_005, lines 784-795). -/
structure OrbitOption where
  id : String
  label : String
deriving DecidableEq, Repr, Inhabited

/-- The component state touched by the mutation coordinator. -/
structure MState where
  actionState : Option (ActionType × String)
  actionError : Option String
  refreshTick : Nat
  linkEditor : Option LinkEditorState
  linkTargetOrbit : String
  callLog : List (ActionType × String)
  settleLog : List (ActionType × String)
deriving DecidableEq, Repr, Inhabited

/-- The initial coordinator state. -/
def initMState : MState :=
  { actionState := none, actionError := none, refreshTick := 0, linkEditor := none
    linkTargetOrbit := "", callLog := [], settleLog := [] }

/-- The composite action key (part_005, lines 843 and 865):
`providerId-providerEventId`. -/
def mkActionKey (providerId providerEventId : String) : String :=
  providerId ++ "-" ++ providerEventId

/-- `isActionLoading` (part_005, lines 882-883). -/
def isActionLoading (s : MState) (t : ActionType) (k : String) : Bool :=
  s.actionState = some (t, k)

/-- The number of issued-but-unsettled network calls for an action key. -/
def inflightCount (s : MState) (t : ActionType) (k : String) : Nat :=
  s.callLog.count (t, k) - s.settleLog.count (t, k)

/-- The coordinator events: button clicks and request settlements. -/
inductive MEvent where
  | clickUnlink (providerId providerEventId : String) (hasOrbitId : Bool)
  | settleUnlink (providerId providerEventId : String) (ok : Bool) (msg : String)
  | clickStartLink (providerId providerEventId : String) (currentOrbitId : Option String)
  | clickSubmitLink
  | settleLink (key : String) (ok : Bool) (msg : String)
  | clickCancelLink
deriving DecidableEq, Repr, Inhabited

/-- One coordinator transition; `opts` is the (snapshot-derived)
`orbitOptions` list read by `startLink`. -/
def mstep (opts : List OrbitOption) (s : MState) (e : MEvent) : MState :=
  match e with
  | MEvent.clickUnlink pid eid hasOrbit =>
    -- part_005 lines 1065-1073: the Unlink button is disabled while the
    -- record is unlinked or `isActionLoading("unlink", actionKey)` holds.
    let key := mkActionKey pid eid
    if !hasOrbit || isActionLoading s ActionType.unlink key then s
    else
      -- part_005 lines 864-869: setActionState, setActionError(null), call.
      { s with
        actionState := some (ActionType.unlink, key)
        actionError := none
        callLog := s.callLog ++ [(ActionType.unlink, key)] }
  | MEvent.settleUnlink pid eid ok msg =>
    -- part_005 lines 869-880: the continuation after the await.
    let key := mkActionKey pid eid
    let s1 := { s with settleLog := s.settleLog ++ [(ActionType.unlink, key)] }
    if ok then
      let s2 :=
        match s1.linkEditor with
        | some ed =>
          if ed.providerId = pid ∧ ed.providerEventId = eid then
            { s1 with linkEditor := none, linkTargetOrbit := "" }
          else s1
        | none => s1
      { s2 with refreshTick := s2.refreshTick + 1, actionState := none }
    else
      { s1 with actionError := some msg, actionState := none }
  | MEvent.clickStartLink pid eid cur =>
    -- part_005 lines 819-828.
    let options := opts.filter (fun o => !(cur = some o.id))
    if options.isEmpty then
      { s with actionError := some "No other Orbit events available to link." }
    else
      { s with
        actionError := none
        linkEditor := some { providerId := pid, providerEventId := eid, currentOrbitId := cur }
        linkTargetOrbit := ((options.head?.map (·.id)).getD "") }
  | MEvent.clickSubmitLink =>
    -- part_005 lines 835-852; the Save button (lines 1100-1110) is
    -- disabled while `isActionLoading("link", actionKey)` holds.
    match s.linkEditor with
    | none => s
    | some ed =>
      let key := mkActionKey ed.providerId ed.providerEventId
      if isActionLoading s ActionType.link key then s
      else if s.linkTargetOrbit = "" ∨ ed.currentOrbitId = some s.linkTargetOrbit then
        { s with actionError := some "Select a different Orbit event to link." }
      else
        { s with
          actionState := some (ActionType.link, key)
          actionError := none
          callLog := s.callLog ++ [(ActionType.link, key)] }
  | MEvent.settleLink key ok msg =>
    -- part_005 lines 847-861: the continuation after the await.
    let s1 := { s with settleLog := s.settleLog ++ [(ActionType.link, key)] }
    if ok then
      { s1 with
        linkEditor := none
        linkTargetOrbit := ""
        refreshTick := s1.refreshTick + 1
        actionState := none }
    else
      { s1 with actionError := some msg, actionState := none }
  | MEvent.clickCancelLink =>
    -- part_005 lines 830-833.
    { s with linkEditor := none, linkTargetOrbit := "" }

/-- Run a sequence of coordinator events. -/
def mrun (opts : List OrbitOption) (s : MState) (es : List MEvent) : MState :=
  es.foldl (mstep opts) s

/-! ## Association-list lemmas -/

theorem mapGet_nil (k : String) : mapGet ([] : List (String × α)) k = none := rfl

theorem mapGet_cons (p : String × α) (m : List (String × α)) (k : String) :
    mapGet (p :: m) k = if p.1 = k then some p.2 else mapGet m k := by
  by_cases h : p.1 = k <;> simp [mapGet, List.find?_cons, h]

theorem mapSet_cons (k' : String) (v' : α) (m : List (String × α)) (k : String) (v : α) :
    mapSet ((k', v') :: m) k v =
      if k' = k then (k, v) :: m else (k', v') :: mapSet m k v := rfl

theorem mapGet_mapSet_self (m : List (String × α)) (k : String) (v : α) :
    mapGet (mapSet m k v) k = some v := by
  induction m with
  | nil => simp [mapSet, mapGet_cons]
  | cons p m ih =>
    obtain ⟨k', v'⟩ := p
    rw [mapSet_cons]
    by_cases h : k' = k <;> simp [h, mapGet_cons, ih]

theorem mapGet_mapSet_ne (m : List (String × α)) (k : String) (v : α) (k' : String)
    (h : k' ≠ k) : mapGet (mapSet m k v) k' = mapGet m k' := by
  have hne : k ≠ k' := fun hh => h hh.symm
  induction m with
  | nil => simp [mapSet, mapGet_cons, mapGet_nil, hne]
  | cons p m ih =>
    obtain ⟨k₀, v₀⟩ := p
    rw [mapSet_cons]
    by_cases h₀ : k₀ = k
    · subst h₀
      simp [mapGet_cons, hne]
    · rw [if_neg h₀, mapGet_cons, mapGet_cons, ih]

theorem mapGet_eq_none_iff (m : List (String × α)) (k : String) :
    mapGet m k = none ↔ k ∉ m.map (·.1) := by
  induction m with
  | nil => simp [mapGet_nil]
  | cons p m ih =>
    rw [mapGet_cons]
    by_cases h : p.1 = k
    · simp [h]
    · rw [if_neg h, ih, List.map_cons]
      simp only [List.mem_cons, not_or]
      constructor
      · intro hk
        exact ⟨fun hc => h hc.symm, hk⟩
      · intro hk
        exact hk.2

theorem mapSet_of_get_none (m : List (String × α)) (k : String) (v : α)
    (h : mapGet m k = none) : mapSet m k v = m ++ [(k, v)] := by
  induction m with
  | nil => rfl
  | cons p m ih =>
    obtain ⟨k₀, v₀⟩ := p
    rw [mapGet_cons] at h
    by_cases h₀ : k₀ = k
    · simp [h₀] at h
    · rw [mapSet_cons, if_neg h₀, ih (by simpa [h₀] using h)]
      simp

theorem mem_mapSet (m : List (String × α)) (k : String) (v : α) (e : String × α)
    (he : e ∈ mapSet m k v) : e = (k, v) ∨ e ∈ m := by
  induction m with
  | nil => simpa [mapSet] using he
  | cons p m ih =>
    obtain ⟨k₀, v₀⟩ := p
    rw [mapSet_cons] at he
    by_cases h₀ : k₀ = k
    · rw [if_pos h₀] at he
      rcases List.mem_cons.mp he with h | h
      · exact Or.inl h
      · exact Or.inr (List.mem_cons_of_mem _ h)
    · rw [if_neg h₀] at he
      rcases List.mem_cons.mp he with h | h
      · exact Or.inr (h ▸ List.mem_cons_self _ _)
      · rcases ih h with h' | h'
        · exact Or.inl h'
        · exact Or.inr (List.mem_cons_of_mem _ h')

theorem mapSet_split (m : List (String × α)) (k : String) (g : α)
    (h : mapGet m k = some g) :
    ∃ m₁ m₂, m = m₁ ++ (k, g) :: m₂ ∧ ∀ v, mapSet m k v = m₁ ++ (k, v) :: m₂ := by
  induction m with
  | nil => simp [mapGet_nil] at h
  | cons p m ih =>
    obtain ⟨k₀, v₀⟩ := p
    rw [mapGet_cons] at h
    by_cases h₀ : k₀ = k
    · subst h₀
      simp at h
      exact ⟨[], m, by simp [h], fun v => by simp [mapSet_cons]⟩
    · rw [if_neg h₀] at h
      obtain ⟨m₁, m₂, hm, hset⟩ := ih h
      exact ⟨(k₀, v₀) :: m₁, m₂, by simp [hm],
        fun v => by simp [mapSet_cons, if_neg h₀, hset v]⟩

theorem keys_mapSet_of_get_some (m : List (String × α)) (k : String) (v : α) (g : α)
    (h : mapGet m k = some g) : (mapSet m k v).map (·.1) = m.map (·.1) := by
  obtain ⟨m₁, m₂, hm, hset⟩ := mapSet_split m k g h
  rw [hset v, hm]
  simp

/-- The lookup into `providerEventCounts` is the literal number of rows
sharing the string key. -/
theorem providerEventCounts_fold_lookup (rows : List Row) (acc : List (String × Nat))
    (k : String) :
    (mapGet (rows.foldl
        (fun counts row =>
          let key := rowKey row.1 row.2
          mapSet counts key ((mapGet counts key).getD 0 + 1)) acc) k).getD 0 =
      (mapGet acc k).getD 0 + rows.countP (fun row => rowKey row.1 row.2 = k) := by
  induction rows generalizing acc with
  | nil => simp
  | cons row rows ih =>
    rw [List.foldl_cons, List.countP_cons, ih]
    by_cases h : rowKey row.1 row.2 = k
    · rw [h, mapGet_mapSet_self]
      simp
      omega
    · rw [mapGet_mapSet_ne _ _ _ _ (fun hk => h hk.symm)]
      simp [h]

theorem providerEventCounts_lookup (rows : List Row) (k : String) :
    (mapGet (providerEventCounts rows) k).getD 0 =
      rows.countP (fun row => rowKey row.1 row.2 = k) := by
  have h := providerEventCounts_fold_lookup rows [] k
  simpa [providerEventCounts, mapGet_nil] using h

/-! ## Invariants of the group-building fold -/

/-- The rows represented by the members of a list of groups, in order. -/
def flatMemberRows (gs : List TroubleshootGroup) : List Row :=
  gs.flatMap (fun g => g.members.map memberRow)

theorem memberRow_buildMember (ctx : GroupCtx) (counts orbitCounts : List (String × Nat))
    (providerId : String) (r : ProviderEventRecord) :
    memberRow (buildMember ctx counts orbitCounts providerId r) = (providerId, r) := rfl

/-- What is true of every entry of the working map after processing the
rows `seen`. -/
structure GoodEntry (ctx : GroupCtx) (counts orbitCounts : List (String × Nat))
    (seen : List Row) (e : String × TroubleshootGroup) : Prop where
  key_eq : e.2.key = e.1
  nonempty : e.2.members ≠ []
  mem_row : ∀ mem ∈ e.2.members, memberRow mem ∈ seen
  mem_key : ∀ mem ∈ e.2.members, rowGroupKey (memberRow mem) = e.1
  mem_build : ∀ mem ∈ e.2.members,
    mem = buildMember ctx counts orbitCounts mem.providerId mem.record
  seed : ∃ row ∈ seen, rowGroupKey row = e.1 ∧ e.2.orbitEventId = row.2.orbit_event_id
  latest_ub : ∀ mem ∈ e.2.members, rowStamp ctx.flowMap mem.record ≤ e.2.latestTimestamp
  latest_mem : ∃ mem ∈ e.2.members, e.2.latestTimestamp = rowStamp ctx.flowMap mem.record

theorem GoodEntry.mono (ctx : GroupCtx) (counts orbitCounts : List (String × Nat))
    (seen seen' : List Row) (e : String × TroubleshootGroup)
    (hsub : ∀ row ∈ seen, row ∈ seen')
    (h : GoodEntry ctx counts orbitCounts seen e) :
    GoodEntry ctx counts orbitCounts seen' e := by
  obtain ⟨h1, h2, h3, h4, h5, ⟨row, hrow, hk, ho⟩, h7, h8⟩ := h
  exact ⟨h1, h2, fun mem hm => hsub _ (h3 mem hm), h4, h5, ⟨row, hsub _ hrow, hk, ho⟩, h7, h8⟩

theorem goodEntry_insertRow (ctx : GroupCtx) (counts orbitCounts : List (String × Nat))
    (seen : List Row) (m : List (String × TroubleshootGroup)) (row : Row)
    (H : ∀ e ∈ m, GoodEntry ctx counts orbitCounts seen e) :
    ∀ e ∈ insertRow ctx counts orbitCounts m row,
      GoodEntry ctx counts orbitCounts (seen ++ [row]) e := by
  intro e he
  have Hmono : ∀ e ∈ m, GoodEntry ctx counts orbitCounts (seen ++ [row]) e := by
    intro e' he'
    exact GoodEntry.mono ctx counts orbitCounts seen (seen ++ [row]) e'
      (fun r hr => List.mem_append_left _ hr) (H e' he')
  have hrowmem : row ∈ seen ++ [row] := List.mem_append_right _ (List.mem_singleton.mpr rfl)
  rw [insertRow] at he
  cases hget : mapGet m (rowGroupKey row) with
  | none =>
    rw [hget] at he
    rcases mem_mapSet _ _ _ _ he with hnew | hold
    · subst hnew
      refine ⟨rfl, by simp, ?_, ?_, ?_, ⟨row, hrowmem, rfl, rfl⟩, ?_, ?_⟩
      · intro mem hm
        rw [List.mem_singleton.mp hm, memberRow_buildMember]
        exact hrowmem
      · intro mem hm
        rw [List.mem_singleton.mp hm, memberRow_buildMember]
      · intro mem hm
        rw [List.mem_singleton.mp hm]
        rfl
      · intro mem hm
        rw [List.mem_singleton.mp hm]
        exact le_refl _
      · exact ⟨_, List.mem_singleton.mpr rfl, rfl⟩
    · exact Hmono e hold
  | some g =>
    rw [hget] at he
    rcases mem_mapSet _ _ _ _ he with hnew | hold
    · subst hnew
      obtain ⟨h1, h2, h3, h4, h5, ⟨srow, hsrow, hsk, hso⟩, h7, h8⟩ := H _
        ((mapSet_split m (rowGroupKey row) g hget).elim
          (fun m₁ hm₁ => hm₁.elim
            (fun m₂ hm₂ => hm₂.1 ▸ List.mem_append_right _ (List.mem_cons_self _ _))))
      refine ⟨h1, ?_, ?_, ?_, ?_, ⟨srow, List.mem_append_left _ hsrow, hsk, hso⟩, ?_, ?_⟩
      · simp
      · intro mem hm
        rcases List.mem_append.mp hm with hm' | hm'
        · exact List.mem_append_left _ (h3 mem hm')
        · rw [List.mem_singleton.mp hm', memberRow_buildMember]
          exact hrowmem
      · intro mem hm
        rcases List.mem_append.mp hm with hm' | hm'
        · exact h4 mem hm'
        · rw [List.mem_singleton.mp hm', memberRow_buildMember]
      · intro mem hm
        rcases List.mem_append.mp hm with hm' | hm'
        · exact h5 mem hm'
        · rw [List.mem_singleton.mp hm']
          rfl
      · intro mem hm
        rcases List.mem_append.mp hm with hm' | hm'
        · exact le_trans (h7 mem hm') (le_max_left _ _)
        · rw [List.mem_singleton.mp hm']
          exact le_max_right _ _
      · obtain ⟨mem0, hmem0, hst⟩ := h8
        rcases le_total (rowStamp ctx.flowMap row.2) g.latestTimestamp with hle | hle
        · exact ⟨mem0, List.mem_append_left _ hmem0, by
            rw [max_eq_left hle]
            exact hst⟩
        · exact ⟨buildMember ctx counts orbitCounts row.1 row.2,
            List.mem_append_right _ (List.mem_singleton.mpr rfl), by
              rw [max_eq_right hle]
              rfl⟩
    · exact Hmono e hold

theorem goodEntry_fold (ctx : GroupCtx) (counts orbitCounts : List (String × Nat)) :
    ∀ (rows : List Row) (seen : List Row) (m : List (String × TroubleshootGroup)),
      (∀ e ∈ m, GoodEntry ctx counts orbitCounts seen e) →
      ∀ e ∈ rows.foldl (insertRow ctx counts orbitCounts) m,
        GoodEntry ctx counts orbitCounts (seen ++ rows) e := by
  intro rows
  induction rows with
  | nil =>
    intro seen m H e he
    simpa using H e (by simpa using he)
  | cons row rows ih =>
    intro seen m H e he
    have h1 := ih (seen ++ [row]) (insertRow ctx counts orbitCounts m row)
      (goodEntry_insertRow ctx counts orbitCounts seen m row H)
    rw [List.append_assoc] at h1
    simpa using h1 e (by simpa using he)

theorem goodEntry_groupsMap (ctx : GroupCtx) (counts orbitCounts : List (String × Nat))
    (rows : List Row) :
    ∀ e ∈ rows.foldl (insertRow ctx counts orbitCounts) [],
      GoodEntry ctx counts orbitCounts rows e := by
  have h := goodEntry_fold ctx counts orbitCounts rows [] [] (by simp)
  simpa using h

/-- Each `insertRow` step adds exactly the processed row to the members. -/
theorem flatMemberRows_insertRow (ctx : GroupCtx) (counts orbitCounts : List (String × Nat))
    (m : List (String × TroubleshootGroup)) (row : Row) :
    List.Perm (flatMemberRows ((insertRow ctx counts orbitCounts m row).map (·.2)))
      (flatMemberRows (m.map (·.2)) ++ [row]) := by
  cases hget : mapGet m (rowGroupKey row) with
  | none =>
    simp only [insertRow, hget, mapSet_of_get_none m _ _ hget, flatMemberRows,
      List.map_append, List.flatMap_append, List.map_cons, List.map_nil,
      List.flatMap_cons, List.flatMap_nil, List.map_singleton, List.append_nil]
    exact List.Perm.refl _
  | some g =>
    obtain ⟨m₁, m₂, hm, hset⟩ := mapSet_split m _ g hget
    simp only [insertRow, hget, hset, flatMemberRows, List.map_append, List.map_cons,
      List.flatMap_append, List.flatMap_cons]
    rw [hm, List.perm_iff_count]
    intro a
    simp only [List.map_append, List.map_cons, List.flatMap_append, List.flatMap_cons,
      List.count_append, List.map_singleton, List.count_singleton,
      memberRow_buildMember, Prod.mk.eta, List.map_nil, List.count_cons, List.count_nil]
    omega

theorem flatMemberRows_fold (ctx : GroupCtx) (counts orbitCounts : List (String × Nat)) :
    ∀ (rows : List Row) (m : List (String × TroubleshootGroup)),
      List.Perm (flatMemberRows ((rows.foldl (insertRow ctx counts orbitCounts) m).map (·.2)))
        (flatMemberRows (m.map (·.2)) ++ rows) := by
  intro rows
  induction rows with
  | nil => simp
  | cons row rows ih =>
    intro m
    rw [List.foldl_cons]
    refine (ih (insertRow ctx counts orbitCounts m row)).trans ?_
    refine ((flatMemberRows_insertRow ctx counts orbitCounts m row).append_right rows).trans ?_
    simp

/-- The working map never holds two entries with the same key. -/
theorem keys_nodup_fold (ctx : GroupCtx) (counts orbitCounts : List (String × Nat)) :
    ∀ (rows : List Row) (m : List (String × TroubleshootGroup)),
      (m.map (·.1)).Nodup →
      (((rows.foldl (insertRow ctx counts orbitCounts) m)).map (·.1)).Nodup := by
  intro rows
  induction rows with
  | nil => exact fun m h => h
  | cons row rows ih =>
    intro m h
    rw [List.foldl_cons]
    refine ih _ ?_
    rw [insertRow]
    cases hget : mapGet m (rowGroupKey row) with
    | none =>
      rw [mapSet_of_get_none m _ _ hget]
      simp only [List.map_append, List.map_singleton]
      rw [List.nodup_append]
      exact ⟨h, List.nodup_singleton _, by
        simpa using fun hmem => ((mapGet_eq_none_iff m (rowGroupKey row)).mp hget) hmem⟩
    | some g =>
      rw [keys_mapSet_of_get_some m _ _ g hget]
      exact h

/-- What is true of every group in the final output. -/
structure GoodGroup (ctx : GroupCtx) (rows : List Row) (g : TroubleshootGroup) : Prop where
  nonempty : g.members ≠ []
  mem_row : ∀ mem ∈ g.members, memberRow mem ∈ rows
  mem_key : ∀ mem ∈ g.members, rowGroupKey (memberRow mem) = g.key
  mem_build : ∀ mem ∈ g.members,
    mem = buildMember ctx (providerEventCounts rows) (orbitMembershipCounts rows)
      mem.providerId mem.record
  seed : ∃ row ∈ rows, rowGroupKey row = g.key ∧ g.orbitEventId = row.2.orbit_event_id
  suspect : g.suspectCollision =
    (decide (g.members.length > 1) || g.members.any (fun mem => mem.duplicateCount > 1))
  pcount : g.providerCount = (g.members.map (·.providerId)).dedup.length
  latest_ub : ∀ mem ∈ g.members, rowStamp ctx.flowMap mem.record ≤ g.latestTimestamp
  latest_mem : ∃ mem ∈ g.members, g.latestTimestamp = rowStamp ctx.flowMap mem.record

theorem mem_groups_iff (ctx : GroupCtx) (rows : List Row) (g : TroubleshootGroup) :
    g ∈ groups ctx rows ↔
      ∃ e ∈ rows.foldl
          (insertRow ctx (providerEventCounts rows) (orbitMembershipCounts rows)) [],
        g = finalizeGroup ctx.nameLe e.2 := by
  rw [groups, List.mem_mergeSort, groupsPreSort]
  simp only [List.mem_map]
  constructor
  · rintro ⟨g', ⟨e, he, rfl⟩, rfl⟩
    exact ⟨e, he, rfl⟩
  · rintro ⟨e, he, rfl⟩
    exact ⟨e.2, ⟨e, he, rfl⟩, rfl⟩

theorem goodGroup_of_mem (ctx : GroupCtx) (rows : List Row) (g : TroubleshootGroup)
    (h : g ∈ groups ctx rows) : GoodGroup ctx rows g := by
  obtain ⟨e, he, rfl⟩ := (mem_groups_iff ctx rows g).mp h
  obtain ⟨h1, h2, h3, h4, h5, ⟨srow, hsrow, hsk, hso⟩, h7, h8⟩ :=
    goodEntry_groupsMap ctx (providerEventCounts rows) (orbitMembershipCounts rows) rows e he
  have hmem : ∀ mem : GroupMember,
      mem ∈ (finalizeGroup ctx.nameLe e.2).members ↔ mem ∈ e.2.members := by
    intro mem
    rw [finalizeGroup]
    exact List.mem_mergeSort
  have hkey : (finalizeGroup ctx.nameLe e.2).key = e.2.key := rfl
  have horbit : (finalizeGroup ctx.nameLe e.2).orbitEventId = e.2.orbitEventId := rfl
  have hlatest : (finalizeGroup ctx.nameLe e.2).latestTimestamp = e.2.latestTimestamp := rfl
  refine ⟨?_, ?_, ?_, ?_, ?_, ?_, ?_, ?_, ?_⟩
  · intro hnil
    have : e.2.members = [] := by
      have := (finalizeGroup ctx.nameLe e.2).members.length
      have hlen : (finalizeGroup ctx.nameLe e.2).members.length = e.2.members.length := by
        rw [finalizeGroup]
        exact List.length_mergeSort e.2.members
      have h0 : e.2.members.length = 0 := by
        rw [← hlen, hnil]
        rfl
      exact List.length_eq_zero.mp h0
    exact h2 this
  · intro mem hm
    exact h3 mem ((hmem mem).mp hm)
  · intro mem hm
    rw [hkey, h1]
    exact h4 mem ((hmem mem).mp hm)
  · intro mem hm
    exact h5 mem ((hmem mem).mp hm)
  · exact ⟨srow, hsrow, by rw [hkey, h1]; exact hsk, by rw [horbit]; exact hso⟩
  · rfl
  · rfl
  · intro mem hm
    rw [hlatest]
    exact h7 mem ((hmem mem).mp hm)
  · obtain ⟨mem, hm, hst⟩ := h8
    exact ⟨mem, (hmem mem).mpr hm, by rw [hlatest]; exact hst⟩

/-! ## Comparator facts -/

theorem groupLe_trans (a b c : TroubleshootGroup)
    (hab : groupLe a b) (hbc : groupLe b c) : groupLe a c := by
  simp only [groupLe, groupCmp, decide_eq_true_eq] at hab hbc ⊢
  by_cases h1 : a.suspectCollision = b.suspectCollision <;>
    by_cases h2 : b.suspectCollision = c.suspectCollision <;>
    by_cases h3 : a.suspectCollision = c.suspectCollision <;>
    simp only [h1, h2, h3, ne_eq, not_true_eq_false, not_false_eq_true, if_true, if_false,
      if_neg, if_pos, ite_not] at hab hbc ⊢ <;>
    first
      | omega
      | (cases hsa : a.suspectCollision <;> cases hsb : b.suspectCollision <;>
          cases hsc : c.suspectCollision <;> simp_all)

theorem groupLe_total (a b : TroubleshootGroup) : groupLe a b || groupLe b a := by
  simp only [groupLe, groupCmp, Bool.or_eq_true, decide_eq_true_eq]
  by_cases h : a.suspectCollision = b.suspectCollision
  · simp only [h, ne_eq, not_true_eq_false, if_false, ite_not]
    omega
  · simp only [h, ne_eq, not_false_eq_true, if_true, Ne.symm h]
    cases hsa : a.suspectCollision <;> simp_all

theorem groupLe_of_tie (a b : TroubleshootGroup)
    (hs : a.suspectCollision = b.suspectCollision)
    (ht : a.latestTimestamp = b.latestTimestamp) : groupLe a b := by
  have hc : groupCmp a b = 0 := by
    simp [groupCmp, hs, ht]
  simp [groupLe, hc]

theorem groupLe_imp (a b : TroubleshootGroup) (h : groupLe a b) :
    (b.suspectCollision = true → a.suspectCollision = true) ∧
      (a.suspectCollision = b.suspectCollision → b.latestTimestamp ≤ a.latestTimestamp) := by
  by_cases hs : a.suspectCollision = b.suspectCollision
  · have hc : groupCmp a b = b.latestTimestamp - a.latestTimestamp := by
      simp [groupCmp, hs]
    simp only [groupLe, hc, decide_eq_true_eq] at h
    refine ⟨fun hb => hs.trans hb, fun _ => by omega⟩
  · refine ⟨?_, fun he => absurd he hs⟩
    intro hb
    cases hsa : a.suspectCollision
    · exfalso
      have hc : groupCmp a b = 1 := by
        simp [groupCmp, hsa, hb]
      simp [groupLe, hc] at h
    · rfl

/-! ## Derived facts about the full pipeline -/

theorem flatMemberRows_groups_perm (ctx : GroupCtx) (rows : List Row) :
    List.Perm (flatMemberRows (groups ctx rows)) rows := by
  have hsort : List.Perm (groups ctx rows) (groupsPreSort ctx rows) :=
    List.mergeSort_perm _ _
  have h1 : List.Perm (flatMemberRows (groups ctx rows))
      (flatMemberRows (groupsPreSort ctx rows)) :=
    List.Perm.flatMap_right _ hsort
  have h2 : List.Perm (flatMemberRows (groupsPreSort ctx rows))
      (flatMemberRows ((rows.foldl (insertRow ctx (providerEventCounts rows)
        (orbitMembershipCounts rows)) []).map (·.2))) := by
    rw [groupsPreSort, flatMemberRows, flatMemberRows, List.flatMap_map]
    refine List.Perm.flatMap_left _ ?_
    intro g _
    refine List.Perm.map memberRow ?_
    rw [finalizeGroup]
    exact List.mergeSort_perm _ _
  have h3 := flatMemberRows_fold ctx (providerEventCounts rows)
    (orbitMembershipCounts rows) rows []
  have h4 := h1.trans (h2.trans h3)
  simpa using h4

theorem groups_keys_nodup (ctx : GroupCtx) (rows : List Row) :
    ((groups ctx rows).map (·.key)).Nodup := by
  have hfold := keys_nodup_fold ctx (providerEventCounts rows)
    (orbitMembershipCounts rows) rows [] (by simp)
  have hgood := goodEntry_groupsMap ctx (providerEventCounts rows)
    (orbitMembershipCounts rows) rows
  have hpre : (groupsPreSort ctx rows).map (·.key) =
      (rows.foldl (insertRow ctx (providerEventCounts rows)
        (orbitMembershipCounts rows)) []).map (·.1) := by
    rw [groupsPreSort, List.map_map, List.map_map]
    refine List.map_congr_left ?_
    intro e he
    have h := (hgood e he).key_eq
    simpa using h
  have hperm : List.Perm ((groups ctx rows).map (·.key))
      ((groupsPreSort ctx rows).map (·.key)) :=
    List.Perm.map _ (List.mergeSort_perm _ _)
  rw [List.Perm.nodup_iff hperm, hpre]
  exact hfold

/-! ## Concrete instances shared by witnesses and counterexamples -/

/-- A concrete context: no flows, no endpoints, no providers; the external
name formatter is the identity and the member comparator always true. -/
def ctxW : GroupCtx :=
  { flowMap := [], endpointMap := [], providerMap := [],
    fmt := fun s => s, nameLe := fun _ _ => true }

def recA : ProviderEventRecord :=
  { orbit_event_id := none, provider_event_id := "x", title := "t", start := none,
    last_updated := none, tombstoned := false }

def recB : ProviderEventRecord :=
  { orbit_event_id := none, provider_event_id := "y", title := "t", start := none,
    last_updated := none, tombstoned := false }

/-- Two duplicated unlinked records per provider event: two synthetic
groups, both collisions, with equal activity stamps. -/
def rowsW : List Row := [("p", recA), ("p", recA), ("p", recB), ("p", recB)]

def memA : GroupMember :=
  { key := "p-x-unlinked", providerId := "p", providerName := "p", endpoint := none,
    record := recA, directionLabel := DirectionLabel.Unmapped, directionText := "Unmapped",
    duplicateCount := 2, orbitLinkCount := 0, tombstoned := false }

def memB : GroupMember :=
  { key := "p-y-unlinked", providerId := "p", providerName := "p", endpoint := none,
    record := recB, directionLabel := DirectionLabel.Unmapped, directionText := "Unmapped",
    duplicateCount := 2, orbitLinkCount := 0, tombstoned := false }

def gA : TroubleshootGroup :=
  { key := "unlinked:p:x", orbitEventId := none, title := "t", start := none,
    orbitOccurredAt := none, suspectCollision := true, providerCount := 1,
    latestTimestamp := 0, members := [memA, memA] }

def gB : TroubleshootGroup :=
  { key := "unlinked:p:y", orbitEventId := none, title := "t", start := none,
    orbitOccurredAt := none, suspectCollision := true, providerCount := 1,
    latestTimestamp := 0, members := [memB, memB] }

theorem groupsPreSortW_eval : groupsPreSort ctxW rowsW = [gA, gB] := by
  simp [groupsPreSort, insertRow, buildMember, finalizeGroup, providerEventCounts,
    orbitMembershipCounts, orbitMembershipSets, mapSet, mapGet, rowGroupKey, rowFlow,
    rowStamp, parseTimestamp, rowKey, ctxW, recA, recB, rowsW, resolveDirection,
    directionTextFor, List.mergeSort, List.merge, memA, memB, gA, gB]

theorem groupsW_eval : groups ctxW rowsW = [gA, gB] := by
  rw [groups, groupsPreSortW_eval]
  simp [List.mergeSort, List.merge, groupLe, groupCmp, gA, gB]

/-! ## Claim C1 -/

/-- C1: every fetched record appears in exactly one reconciliation group of
the computed output — the member rows collected over all groups are a
permutation of the input snapshot and group keys are pairwise distinct —
and the key of the group holding a record equals the canonical id of the record
when present, else the synthetic `unlinked:providerId:providerEventId` key,
so two unlinked records with the same pair land in one synthetic-keyed
group. -/
theorem claim_record_partition (ctx : GroupCtx) (rows : List Row) :
    List.Perm (flatMemberRows (groups ctx rows)) rows ∧
      (∀ g ∈ groups ctx rows, ∀ mem ∈ g.members, g.key = rowGroupKey (memberRow mem)) ∧
      ((groups ctx rows).map (·.key)).Nodup := by
  refine ⟨flatMemberRows_groups_perm ctx rows, ?_, groups_keys_nodup ctx rows⟩
  intro g hg mem hm
  exact ((goodGroup_of_mem ctx rows g hg).mem_key mem hm).symm

/-- Witness for C1 at the concrete snapshot `rowsW`. -/
theorem claim_record_partition_witness :
    List.Perm (flatMemberRows (groups ctxW rowsW)) rowsW ∧
      gA.key = rowGroupKey (memberRow memA) ∧
      ((groups ctxW rowsW).map (·.key)).Nodup := by
  have h := claim_record_partition ctxW rowsW
  refine ⟨h.1, ?_, h.2.2⟩
  have hg : gA ∈ groups ctxW rowsW := by
    rw [groupsW_eval]
    exact List.mem_cons_self _ _
  exact h.2.1 gA hg memA (by simp [gA])

/-! ## Claim C3 -/

/-- C3: in the computed group list every suspect-collision group precedes
every non-suspect group; within each partition `latestTimestamp` is
non-increasing; and groups tied on both fields keep the insertion
(first-encounter) order of `groupsPreSort` — the final pass is a stable
sort. -/
theorem claim_group_ordering (ctx : GroupCtx) (rows : List Row) :
    List.Pairwise (fun a b =>
        (b.suspectCollision = true → a.suspectCollision = true) ∧
          (a.suspectCollision = b.suspectCollision →
            b.latestTimestamp ≤ a.latestTimestamp))
      (groups ctx rows) ∧
      ∀ a b : TroubleshootGroup, a.suspectCollision = b.suspectCollision →
        a.latestTimestamp = b.latestTimestamp →
        List.Sublist [a, b] (groupsPreSort ctx rows) →
        List.Sublist [a, b] (groups ctx rows) := by
  constructor
  · have h := List.sorted_mergeSort groupLe_trans groupLe_total (groupsPreSort ctx rows)
    exact List.Pairwise.imp (fun hab => groupLe_imp _ _ hab) h
  · intro a b hs ht hsub
    exact List.pair_sublist_mergeSort groupLe_trans groupLe_total
      (groupLe_of_tie a b hs ht) hsub

/-- Witness for C3: on `rowsW` both groups are suspect with equal stamps,
and their insertion order survives into the output. -/
theorem claim_group_ordering_witness :
    List.Pairwise (fun a b =>
        (b.suspectCollision = true → a.suspectCollision = true) ∧
          (a.suspectCollision = b.suspectCollision →
            b.latestTimestamp ≤ a.latestTimestamp))
      (groups ctxW rowsW) ∧
      List.Sublist [gA, gB] (groups ctxW rowsW) := by
  have h := claim_group_ordering ctxW rowsW
  refine ⟨h.1, ?_⟩
  refine h.2 gA gB rfl rfl ?_
  rw [groupsPreSortW_eval]

/-! ## Claim C2 -/

/-- C2 (amended): `suspectCollision` is true iff the group has more than
one member or some member has `duplicateCount > 1`, where `duplicateCount`
is the count of snapshot rows sharing the string key
`providerId::providerEventId`; that string count equals the literal
`(providerId, providerEventId)` pair count whenever the string key is
injective on the snapshot (e.g. when no provider id contains a colon). -/
theorem claim_suspect_collision (ctx : GroupCtx) (rows : List Row) :
    (∀ g ∈ groups ctx rows,
      (g.suspectCollision = true ↔
        1 < g.members.length ∨ ∃ mem ∈ g.members, 1 < mem.duplicateCount)) ∧
    (∀ g ∈ groups ctx rows, ∀ mem ∈ g.members,
      mem.duplicateCount =
        rows.countP (fun row => rowKey row.1 row.2 = rowKey mem.providerId mem.record)) ∧
    ((∀ row ∈ rows, ∀ row2 ∈ rows,
        rowKey row.1 row.2 = rowKey row2.1 row2.2 →
        row.1 = row2.1 ∧ row.2.provider_event_id = row2.2.provider_event_id) →
      ∀ g ∈ groups ctx rows, ∀ mem ∈ g.members,
        mem.duplicateCount = rows.countP (fun row =>
          row.1 = mem.providerId ∧
            row.2.provider_event_id = mem.record.provider_event_id)) := by
  have hdupAll : ∀ g ∈ groups ctx rows, ∀ mem ∈ g.members,
      mem.duplicateCount =
        rows.countP (fun row => rowKey row.1 row.2 = rowKey mem.providerId mem.record) := by
    intro g hg mem hm
    have hb := (goodGroup_of_mem ctx rows g hg).mem_build mem hm
    have hdup : mem.duplicateCount =
        (mapGet (providerEventCounts rows) (rowKey mem.providerId mem.record)).getD 0 := by
      conv_lhs => rw [hb]
      rfl
    rw [hdup, providerEventCounts_lookup]
  refine ⟨?_, hdupAll, ?_⟩
  · intro g hg
    rw [(goodGroup_of_mem ctx rows g hg).suspect]
    simp [List.any_eq_true]
  · intro hinj g hg mem hm
    rw [hdupAll g hg mem hm]
    refine List.countP_congr ?_
    intro row hrow
    simp only [decide_eq_true_eq]
    constructor
    · intro hk
      exact hinj row hrow (memberRow mem)
        ((goodGroup_of_mem ctx rows g hg).mem_row mem hm) hk
    · rintro ⟨h1, h2⟩
      simp [rowKey, h1, h2]

def ce2recA : ProviderEventRecord :=
  { orbit_event_id := none, provider_event_id := "c", title := "t", start := none,
    last_updated := none, tombstoned := false }

def ce2recB : ProviderEventRecord :=
  { orbit_event_id := none, provider_event_id := "b::c", title := "t", start := none,
    last_updated := none, tombstoned := false }

/-- Two distinct pairs whose string keys collide:
`a::b :: c` and `a :: b::c` both yield the key `a::b::c`. -/
def ce2Rows : List Row := [("a::b", ce2recA), ("a", ce2recB)]

/-- Counterexample to C2 as stated: both groups are flagged as collisions
even though each has a single member and every literal pair occurs exactly
once in the snapshot, because the `::`-joined string keys of the two rows
collide. -/
theorem claim_suspect_collision_counterexample :
    (groups ctxW ce2Rows).map (fun g => (g.suspectCollision,
        decide (1 < g.members.length) ||
          g.members.any (fun mem => decide (1 < ce2Rows.countP (fun row =>
            row.1 = mem.providerId ∧
              row.2.provider_event_id = mem.record.provider_event_id))))) =
      [(true, false), (true, false)] := by
  simp [groups, groupsPreSort, insertRow, buildMember, finalizeGroup, providerEventCounts,
    orbitMembershipCounts, orbitMembershipSets, mapSet, mapGet, rowGroupKey, rowFlow,
    rowStamp, parseTimestamp, rowKey, ctxW, ce2recA, ce2recB, ce2Rows, resolveDirection,
    directionTextFor, List.mergeSort, List.merge, groupLe, groupCmp, List.countP_cons]

/-- Witness for the amended C2 at the concrete snapshot `rowsW`, whose
provider ids contain no colon. -/
theorem claim_suspect_collision_witness :
    (gA.suspectCollision = true ↔
      1 < gA.members.length ∨ ∃ mem ∈ gA.members, 1 < mem.duplicateCount) ∧
    memA.duplicateCount =
      rowsW.countP (fun row => rowKey row.1 row.2 = rowKey memA.providerId memA.record) ∧
    memA.duplicateCount = rowsW.countP (fun row =>
      row.1 = memA.providerId ∧
        row.2.provider_event_id = memA.record.provider_event_id) := by
  have h := claim_suspect_collision ctxW rowsW
  have hg : gA ∈ groups ctxW rowsW := by
    rw [groupsW_eval]
    exact List.mem_cons_self _ _
  have hmA : memA ∈ gA.members := by
    simp [gA]
  exact ⟨h.1 gA hg, h.2.1 gA hg memA hmA, h.2.2 (by decide) gA hg memA hmA⟩

/-! ## Claim C10 -/

theorem rowGroupKey_of_some (row : Row) (o : String)
    (h : row.2.orbit_event_id = some o) : rowGroupKey row = o := by
  simp [rowGroupKey, h]

theorem rowGroupKey_of_none (row : Row) (h : row.2.orbit_event_id = none) :
    rowGroupKey row = "unlinked:" ++ row.1 ++ ":" ++ row.2.provider_event_id := by
  simp [rowGroupKey, h]

/-- C10 (amended): provided the canonical id of no record collides with a
synthetic key of an unlinked record and synthetic keys are injective on the
snapshot (both hold e.g. when provider ids contain no colon and no
canonical id has the `unlinked:` shape), every computed group is non-empty
and internally homogeneous: a group with a canonical id carries it as its
key and on the record of every member; a group without one holds only unlinked
members sharing a single `(providerId, providerEventId)` pair; and
`providerCount` is the number of distinct member provider ids, between 1
and the member count. -/
theorem claim_group_homogeneity (ctx : GroupCtx) (rows : List Row)
    (hcol : ∀ row ∈ rows, ∀ o, row.2.orbit_event_id = some o →
      ∀ row2 ∈ rows, row2.2.orbit_event_id = none → o ≠ rowGroupKey row2)
    (hsyn : ∀ row ∈ rows, ∀ row2 ∈ rows, row.2.orbit_event_id = none →
      row2.2.orbit_event_id = none → rowGroupKey row = rowGroupKey row2 →
      row.1 = row2.1 ∧ row.2.provider_event_id = row2.2.provider_event_id) :
    ∀ g ∈ groups ctx rows,
      g.members ≠ [] ∧
      (∀ o, g.orbitEventId = some o → g.key = o ∧
        ∀ mem ∈ g.members, mem.record.orbit_event_id = some o) ∧
      (g.orbitEventId = none → ∀ mem ∈ g.members,
        mem.record.orbit_event_id = none ∧
          ∀ mem2 ∈ g.members, mem.providerId = mem2.providerId ∧
            mem.record.provider_event_id = mem2.record.provider_event_id) ∧
      g.providerCount = (g.members.map (·.providerId)).dedup.length ∧
      1 ≤ g.providerCount ∧ g.providerCount ≤ g.members.length := by
  intro g hg
  have gg := goodGroup_of_mem ctx rows g hg
  obtain ⟨srow, hsrow, hsk, hso⟩ := gg.seed
  refine ⟨gg.nonempty, ?_, ?_, gg.pcount, ?_, ?_⟩
  · intro o ho
    have hsoo : srow.2.orbit_event_id = some o := hso.symm.trans ho
    have hkey : g.key = o := hsk.symm.trans (rowGroupKey_of_some srow o hsoo)
    refine ⟨hkey, ?_⟩
    intro mem hm
    have hmk : rowGroupKey (memberRow mem) = o := (gg.mem_key mem hm).trans hkey
    cases hmo : mem.record.orbit_event_id with
    | some o2 =>
      have h1 : rowGroupKey (memberRow mem) = o2 := rowGroupKey_of_some _ o2 hmo
      rw [h1.symm.trans hmk]
    | none =>
      exact absurd hmk.symm (hcol srow hsrow o hsoo (memberRow mem) (gg.mem_row mem hm) hmo)
  · intro hnone
    have hsn : srow.2.orbit_event_id = none := hso.symm.trans hnone
    have hallnone : ∀ mem ∈ g.members, mem.record.orbit_event_id = none := by
      intro mem hm
      cases hmo : mem.record.orbit_event_id with
      | none => rfl
      | some o2 =>
        exfalso
        have h1 : rowGroupKey (memberRow mem) = o2 := rowGroupKey_of_some _ o2 hmo
        have h2 : o2 = rowGroupKey srow := by
          rw [← h1, gg.mem_key mem hm, ← hsk]
        exact hcol (memberRow mem) (gg.mem_row mem hm) o2 hmo srow hsrow hsn h2
    intro mem hm
    refine ⟨hallnone mem hm, ?_⟩
    intro mem2 hm2
    exact hsyn (memberRow mem) (gg.mem_row mem hm) (memberRow mem2) (gg.mem_row mem2 hm2)
      (hallnone mem hm) (hallnone mem2 hm2)
      ((gg.mem_key mem hm).trans (gg.mem_key mem2 hm2).symm)
  · rw [gg.pcount]
    have h1 : g.members.map (fun mem => mem.providerId) ≠ [] := by
      simpa using gg.nonempty
    have h2 : (g.members.map (fun mem => mem.providerId)).dedup ≠ [] := by
      rwa [Ne, List.dedup_eq_nil]
    exact List.length_pos.mpr h2
  · rw [gg.pcount]
    calc (g.members.map (fun mem => mem.providerId)).dedup.length
        ≤ (g.members.map (fun mem => mem.providerId)).length :=
          (List.dedup_sublist _).length_le
      _ = g.members.length := List.length_map _ _

def ce10recA : ProviderEventRecord :=
  { orbit_event_id := none, provider_event_id := "e", title := "t", start := none,
    last_updated := none, tombstoned := false }

def ce10recB : ProviderEventRecord :=
  { orbit_event_id := some "unlinked:p:e", provider_event_id := "z", title := "u",
    start := none, last_updated := none, tombstoned := false }

/-- A canonical id that collides with the synthetic key of an unlinked
record from another provider. -/
def ce10Rows : List Row := [("p", ce10recA), ("q", ce10recB)]

/-- Counterexample to C10 as stated: the two records land in one group
whose `orbitEventId` is `none`, yet one member carries a canonical id (and
the two members do not share a `(providerId, providerEventId)` pair). -/
theorem claim_group_homogeneity_counterexample :
    (groups ctxW ce10Rows).map (fun g =>
        (g.orbitEventId, g.members.map (fun mem =>
          (mem.record.orbit_event_id, mem.providerId)))) =
      [(none, [(none, "p"), (some "unlinked:p:e", "q")])] := by
  simp [groups, groupsPreSort, insertRow, buildMember, finalizeGroup, providerEventCounts,
    orbitMembershipCounts, orbitMembershipSets, mapSet, mapGet, rowGroupKey, rowFlow,
    rowStamp, parseTimestamp, rowKey, ctxW, ce10recA, ce10recB, ce10Rows, resolveDirection,
    directionTextFor, List.mergeSort, List.merge, groupLe, groupCmp]

/-- Witness for the amended C10 at `rowsW`: both collision-freedom
hypotheses hold there by computation. -/
theorem claim_group_homogeneity_witness :
    gA.members ≠ [] ∧
      (∀ o, gA.orbitEventId = some o → gA.key = o ∧
        ∀ mem ∈ gA.members, mem.record.orbit_event_id = some o) ∧
      (gA.orbitEventId = none → ∀ mem ∈ gA.members,
        mem.record.orbit_event_id = none ∧
          ∀ mem2 ∈ gA.members, mem.providerId = mem2.providerId ∧
            mem.record.provider_event_id = mem2.record.provider_event_id) ∧
      gA.providerCount = (gA.members.map (·.providerId)).dedup.length ∧
      1 ≤ gA.providerCount ∧ gA.providerCount ≤ gA.members.length := by
  have hg : gA ∈ groups ctxW rowsW := by
    rw [groupsW_eval]
    exact List.mem_cons_self _ _
  exact claim_group_homogeneity ctxW rowsW (by decide) (by decide) gA hg

/-! ## Claim C8 -/

/-- The timestamps actually present on a member: the parsed `last_updated`
and `start` of its record and the parsed `occurred_at` of the matched
flow, with missing or unparseable values omitted. -/
def presentStamps (flowMap : List (String × SyncEventSummary)) (mem : GroupMember) :
    List Int :=
  mem.record.last_updated.toList ++ mem.record.start.toList ++
    ((rowFlow flowMap mem.record).bind (·.occurred_at)).toList

/-- Modelled from the words of the claim: the claimed `latestActivityAt`
is the maximum over all members of `lastUpdatedAt`, `startAt` and the
matched flow `occurredAt`, a missing or unparseable timestamp treated as
the earliest-possible value — so it never wins the maximum; the result is
`none` when every timestamp is missing. -/
def specLatestActivity (flowMap : List (String × SyncEventSummary))
    (members : List GroupMember) : Option Int :=
  (members.flatMap (presentStamps flowMap)).foldl
    (fun acc t =>
      match acc with
      | none => some t
      | some a => some (max a t)) none

def ce8rec : ProviderEventRecord :=
  { orbit_event_id := none, provider_event_id := "e", title := "t", start := some (-100),
    last_updated := none, tombstoned := false }

/-- One record whose only parseable timestamp is before the Unix epoch. -/
def ce8Rows : List Row := [("p", ce8rec)]

/-- Counterexample to C8 as stated: the only present timestamp is `-100`,
so treating missing values as earliest-possible yields `-100`, but the code
maps every missing value to `0` and computes `latestTimestamp = 0`. -/
theorem claim_latest_activity_counterexample :
    (groups ctxW ce8Rows).map (fun g =>
        (specLatestActivity ctxW.flowMap g.members, g.latestTimestamp)) =
      [(some (-100), 0)] ∧ (some (-100 : Int) ≠ some (0 : Int)) := by
  constructor
  · simp [groups, groupsPreSort, insertRow, buildMember, finalizeGroup, providerEventCounts,
      orbitMembershipCounts, orbitMembershipSets, mapSet, mapGet, rowGroupKey, rowFlow,
      rowStamp, parseTimestamp, rowKey, ctxW, ce8rec, ce8Rows, resolveDirection,
      directionTextFor, List.mergeSort, List.merge, groupLe, groupCmp,
      specLatestActivity, presentStamps]
  · simp

/-- C8 (amended): `latestTimestamp` equals the maximum over the
group members of the parsed `lastUpdatedAt`, `startAt` and matched-flow
`occurredAt` stamps, where a missing or unparseable timestamp contributes
the Unix epoch `0` (not the earliest-possible value: a parseable pre-1970
timestamp sorts below a missing one); the computation is total and never
throws. -/
theorem claim_latest_activity (ctx : GroupCtx) (rows : List Row) :
    ∀ g ∈ groups ctx rows,
      (g.members.map (fun mem => rowStamp ctx.flowMap mem.record)).maximum =
        (g.latestTimestamp : WithBot ℤ) := by
  intro g hg
  have gg := goodGroup_of_mem ctx rows g hg
  rw [List.maximum_eq_coe_iff]
  constructor
  · obtain ⟨mem, hm, hst⟩ := gg.latest_mem
    exact List.mem_map.mpr ⟨mem, hm, hst.symm⟩
  · intro a ha
    obtain ⟨mem, hm, heq⟩ := List.mem_map.mp ha
    rw [← heq]
    exact gg.latest_ub mem hm

/-- Witness for the amended C8 at `rowsW`. -/
theorem claim_latest_activity_witness :
    (gA.members.map (fun mem => rowStamp ctxW.flowMap mem.record)).maximum =
      (gA.latestTimestamp : WithBot ℤ) := by
  have hg : gA ∈ groups ctxW rowsW := by
    rw [groupsW_eval]
    exact List.mem_cons_self _ _
  exact claim_latest_activity ctxW rowsW gA hg

/-! ## Claim C9 -/

/-- C9: direction resolution. With no matched flow the label is Unmapped;
with a matched flow whose source and target provider ids both differ from
the acting provider the label is still Unmapped; if the acting provider is
the flow source the label is Outbound and the counterpart is the display
name of the target provider (resolved through the endpoint and provider
lookups, the raw id being fed to the formatter as last resort, and the raw
id itself used when the formatted name is empty); symmetrically for the
flow target and Inbound. Every member of every computed group carries
exactly this resolution and its rendered text. -/
theorem claim_direction_resolution (ctx : GroupCtx) (providerId : String)
    (f : SyncEventSummary) :
    resolveDirection ctx providerId none = (DirectionLabel.Unmapped, none) ∧
    (f.source_provider_id ≠ some providerId → f.target_provider_id ≠ some providerId →
      resolveDirection ctx providerId (some f) = (DirectionLabel.Unmapped, none)) ∧
    (f.source_provider_id = some providerId →
      (resolveDirection ctx providerId (some f)).1 = DirectionLabel.Outbound ∧
      (f.target_provider_id = none →
        (resolveDirection ctx providerId (some f)).2 = none) ∧
      (∀ tid, f.target_provider_id = some tid → tid ≠ "" →
        (resolveDirection ctx providerId (some f)).2 =
          some (counterpartNameFor ctx tid))) ∧
    (f.target_provider_id = some providerId → f.source_provider_id ≠ some providerId →
      (resolveDirection ctx providerId (some f)).1 = DirectionLabel.Inbound ∧
      (f.source_provider_id = none →
        (resolveDirection ctx providerId (some f)).2 = none) ∧
      (∀ sid, f.source_provider_id = some sid → sid ≠ "" →
        (resolveDirection ctx providerId (some f)).2 =
          some (counterpartNameFor ctx sid))) ∧
    (∀ pid2, mapGet ctx.endpointMap pid2 = none → mapGet ctx.providerMap pid2 = none →
      counterpartNameFor ctx pid2 =
        if ctx.fmt pid2 = "" then pid2 else ctx.fmt pid2) ∧
    (∀ rows g, g ∈ groups ctx rows → ∀ mem ∈ g.members,
      mem.directionLabel =
        (resolveDirection ctx mem.providerId (rowFlow ctx.flowMap mem.record)).1 ∧
      mem.directionText =
        directionTextFor
          (resolveDirection ctx mem.providerId (rowFlow ctx.flowMap mem.record)).1
          (resolveDirection ctx mem.providerId (rowFlow ctx.flowMap mem.record)).2) := by
  refine ⟨rfl, ?_, ?_, ?_, ?_, ?_⟩
  · intro hs ht
    simp [resolveDirection, hs, ht]
  · intro hs
    refine ⟨by simp [resolveDirection, hs], ?_, ?_⟩
    · intro ht
      simp [resolveDirection, hs, ht]
    · intro tid htid hne
      simp [resolveDirection, hs, htid, hne]
  · intro ht hs
    refine ⟨by simp [resolveDirection, hs, ht], ?_, ?_⟩
    · intro hsn
      simp [resolveDirection, hs, ht, hsn]
    · intro sid hsid hne
      have hsp : sid ≠ providerId := by
        intro hh
        exact hs (hsid.trans (by rw [hh]))
      simp [resolveDirection, hs, ht, hsid, hne, hsp]
  · intro pid2 h1 h2
    simp [counterpartNameFor, h1, h2]
  · intro rows g hg mem hm
    have hb := (goodGroup_of_mem ctx rows g hg).mem_build mem hm
    constructor
    · conv_lhs => rw [hb]
      rfl
    · conv_lhs => rw [hb]
      rfl

/-- A concrete flow record with the acting provider as source. -/
def fF : SyncEventSummary :=
  { id := "o1", title := "ft", occurred_at := none,
    source_provider_id := some "p", target_provider_id := some "q" }

/-- Witness for C9 at a concrete flow and the concrete snapshot `rowsW`. -/
theorem claim_direction_resolution_witness :
    resolveDirection ctxW "p" none = (DirectionLabel.Unmapped, none) ∧
    (resolveDirection ctxW "p" (some fF)).1 = DirectionLabel.Outbound ∧
    (resolveDirection ctxW "p" (some fF)).2 = some (counterpartNameFor ctxW "q") ∧
    memA.directionLabel =
      (resolveDirection ctxW memA.providerId (rowFlow ctxW.flowMap memA.record)).1 := by
  have h := claim_direction_resolution ctxW "p" fF
  have hg : gA ∈ groups ctxW rowsW := by
    rw [groupsW_eval]
    exact List.mem_cons_self _ _
  have hmA : memA ∈ gA.members := by
    simp [gA]
  refine ⟨h.1, (h.2.2.1 rfl).1, (h.2.2.1 rfl).2.2 "q" rfl (by decide), ?_⟩
  exact (h.2.2.2.2.2 rowsW gA hg memA hmA).1

/-! ## Claim C4 -/

theorem clickUnlink_noop (opts : List OrbitOption) (s : MState) (pid eid : String) (b : Bool)
    (h : (!b || isActionLoading s ActionType.unlink (mkActionKey pid eid)) = true) :
    mstep opts s (MEvent.clickUnlink pid eid b) = s := by
  simp [mstep, h]

theorem clickUnlink_issue (opts : List OrbitOption) (s : MState) (pid eid : String) (b : Bool)
    (h : (!b || isActionLoading s ActionType.unlink (mkActionKey pid eid)) = false) :
    mstep opts s (MEvent.clickUnlink pid eid b) =
      { s with actionState := some (ActionType.unlink, mkActionKey pid eid)
               actionError := none
               callLog := s.callLog ++ [(ActionType.unlink, mkActionKey pid eid)] } := by
  simp [mstep, h]

def ce4Trace2 : List MEvent :=
  [MEvent.clickUnlink "a" "1" true, MEvent.clickUnlink "b" "2" true]

def ce4Trace3 : List MEvent :=
  ce4Trace2 ++ [MEvent.clickUnlink "a" "1" true]

/-- Counterexample to C4 as stated: after unlink(a,1) and unlink(b,2), the
first request for key `a-1` is still in flight (one call issued, none
settled), yet a repeat unlink(a,1) issues a second network call for that
key, because the single `actionState` slot now holds key `b-2` and no
longer guards `a-1`. -/
theorem claim_inflight_noop_counterexample :
    inflightCount (mrun [] initMState ce4Trace2) ActionType.unlink "a-1" = 1 ∧
    (mrun [] initMState ce4Trace3).callLog.count (ActionType.unlink, "a-1") = 2 := by
  decide

/-- C4 (amended): the client-side duplicate-submission guard is the single
`actionState` slot. A second unlink invocation for a key is a no-op
exactly while the slot still records that key as loading; in particular two
back-to-back unlink invocations for the same key with no intervening
coordinator event issue at most one network call. An invocation for a
different key overwrites the slot, after which a repeat invocation for the
original key issues another call even if the original request is still in
flight. -/
theorem claim_inflight_noop (opts : List OrbitOption) (s : MState)
    (pid eid : String) (b b2 : Bool) :
    (isActionLoading s ActionType.unlink (mkActionKey pid eid) = true →
      mstep opts s (MEvent.clickUnlink pid eid b) = s) ∧
    (mrun opts s [MEvent.clickUnlink pid eid b,
        MEvent.clickUnlink pid eid b2]).callLog.count
        (ActionType.unlink, mkActionKey pid eid) ≤
      s.callLog.count (ActionType.unlink, mkActionKey pid eid) + 1 := by
  constructor
  · intro h
    exact clickUnlink_noop opts s pid eid b (by simp [h])
  · show (mstep opts (mstep opts s (MEvent.clickUnlink pid eid b))
        (MEvent.clickUnlink pid eid b2)).callLog.count
        (ActionType.unlink, mkActionKey pid eid) ≤
      s.callLog.count (ActionType.unlink, mkActionKey pid eid) + 1
    cases h1 : (!b || isActionLoading s ActionType.unlink (mkActionKey pid eid)) with
    | true =>
      rw [clickUnlink_noop opts s pid eid b h1]
      cases h2 : (!b2 || isActionLoading s ActionType.unlink (mkActionKey pid eid)) with
      | true =>
        rw [clickUnlink_noop opts s pid eid b2 h2]
        omega
      | false =>
        rw [clickUnlink_issue opts s pid eid b2 h2]
        simp [List.count_append]
    | false =>
      rw [clickUnlink_issue opts s pid eid b h1]
      have h2 : (!b2 || isActionLoading
          { s with actionState := some (ActionType.unlink, mkActionKey pid eid)
                   actionError := none
                   callLog := s.callLog ++ [(ActionType.unlink, mkActionKey pid eid)] }
          ActionType.unlink (mkActionKey pid eid)) = true := by
        simp [isActionLoading]
      rw [clickUnlink_noop opts _ pid eid b2 h2]
      simp [List.count_append]

/-- A state with an unlink for key `a-1` pending. -/
def sPend : MState := { initMState with actionState := some (ActionType.unlink, "a-1") }

/-- Witness for the amended C4. -/
theorem claim_inflight_noop_witness :
    mstep [] sPend (MEvent.clickUnlink "a" "1" true) = sPend ∧
    (mrun [] initMState [MEvent.clickUnlink "a" "1" true,
        MEvent.clickUnlink "a" "1" true]).callLog.count
        (ActionType.unlink, mkActionKey "a" "1") ≤
      initMState.callLog.count (ActionType.unlink, mkActionKey "a" "1") + 1 := by
  have h := claim_inflight_noop [] sPend "a" "1" true true
  have h2 := claim_inflight_noop [] initMState "a" "1" true true
  exact ⟨h.1 (by decide), h2.2⟩

/-! ## Claim C5 -/

def ce5Trace : List MEvent :=
  [MEvent.clickUnlink "a" "1" true, MEvent.settleUnlink "a" "1" false "boom"]

/-- Counterexample to C5 as stated: an unlink request settles with failure;
the action state returns to Idle and the error is surfaced, but no re-fetch
is scheduled — `refreshTick` stays `0` instead of incrementing. -/
theorem claim_settle_idle_counterexample :
    (mrun [] initMState ce5Trace).callLog.count (ActionType.unlink, "a-1") = 1 ∧
    (mrun [] initMState ce5Trace).settleLog.count (ActionType.unlink, "a-1") = 1 ∧
    (mrun [] initMState ce5Trace).actionState = none ∧
    (mrun [] initMState ce5Trace).actionError = some "boom" ∧
    (mrun [] initMState ce5Trace).refreshTick = 0 ∧
    ¬((mrun [] initMState ce5Trace).refreshTick = initMState.refreshTick + 1) := by
  decide

/-- C5 (amended): upon settlement of a link or unlink request the in-flight
action state returns to Idle regardless of outcome; a full re-fetch is
scheduled (the refresh tick increments) only on success; failure surfaces
the error message and schedules no re-fetch. -/
theorem claim_settle_idle (opts : List OrbitOption) (s : MState)
    (pid eid key msg : String) :
    ((mstep opts s (MEvent.settleUnlink pid eid true msg)).actionState = none ∧
      (mstep opts s (MEvent.settleUnlink pid eid true msg)).refreshTick =
        s.refreshTick + 1) ∧
    ((mstep opts s (MEvent.settleUnlink pid eid false msg)).actionState = none ∧
      (mstep opts s (MEvent.settleUnlink pid eid false msg)).refreshTick = s.refreshTick ∧
      (mstep opts s (MEvent.settleUnlink pid eid false msg)).actionError = some msg) ∧
    ((mstep opts s (MEvent.settleLink key true msg)).actionState = none ∧
      (mstep opts s (MEvent.settleLink key true msg)).refreshTick = s.refreshTick + 1) ∧
    ((mstep opts s (MEvent.settleLink key false msg)).actionState = none ∧
      (mstep opts s (MEvent.settleLink key false msg)).refreshTick = s.refreshTick ∧
      (mstep opts s (MEvent.settleLink key false msg)).actionError = some msg) := by
  refine ⟨⟨?_, ?_⟩, ⟨?_, ?_, ?_⟩, ⟨?_, ?_⟩, ⟨?_, ?_, ?_⟩⟩ <;>
    first
      | rfl
      | (simp only [mstep]
         repeat' split
         all_goals simp_all)

/-! ## Claim C6 -/

/-- C6: submitting a link whose chosen target equals the current canonical
id of the record (or with no target chosen) is rejected with the validation
message, changing nothing else — no network call and no transition out of
Idle — and opening the link editor when no other canonical events exist is
rejected the same way. -/
theorem claim_link_validation (opts : List OrbitOption) (s : MState)
    (ed : LinkEditorState) (pid eid : String) (cur : Option String) :
    (s.linkEditor = some ed → s.actionState = none →
      (s.linkTargetOrbit = "" ∨ ed.currentOrbitId = some s.linkTargetOrbit) →
      mstep opts s MEvent.clickSubmitLink =
        { s with actionError := some "Select a different Orbit event to link." }) ∧
    ((opts.filter (fun o => !(cur = some o.id))).isEmpty = true →
      mstep opts s (MEvent.clickStartLink pid eid cur) =
        { s with actionError := some "No other Orbit events available to link." }) := by
  constructor
  · intro hed hstate hval
    have hload : ¬(isActionLoading s ActionType.link
        (mkActionKey ed.providerId ed.providerEventId) = true) := by
      simp [isActionLoading, hstate]
    simp only [mstep, hed]
    rw [if_neg hload, if_pos hval]
  · intro hempty
    simp only [mstep]
    rw [if_pos hempty]

def edW : LinkEditorState :=
  { providerId := "p", providerEventId := "x", currentOrbitId := some "o1" }

def sEd : MState := { initMState with linkEditor := some edW, linkTargetOrbit := "o1" }

/-- Witness for C6. -/
theorem claim_link_validation_witness :
    mstep [] sEd MEvent.clickSubmitLink =
      { sEd with actionError := some "Select a different Orbit event to link." } ∧
    mstep [] initMState (MEvent.clickStartLink "p" "x" (some "o2")) =
      { initMState with actionError := some "No other Orbit events available to link." } := by
  have h := claim_link_validation [] sEd edW "p" "x" (some "o2")
  have h2 := claim_link_validation [] initMState edW "p" "x" (some "o2")
  exact ⟨h.1 rfl rfl (Or.inr rfl), h2.2 (by decide)⟩

/-! ## Claim C7 -/

theorem panelData_applyFetchFailure (ps : Panels) (pid msg : String) (pid2 : String) :
    panelData (applyFetchFailure ps pid msg) pid2 = panelData ps pid2 := by
  by_cases h : pid2 = pid
  · subst h
    simp [panelData, applyFetchFailure, mapGet_mapSet_self]
  · simp [panelData, applyFetchFailure, mapGet_mapSet_ne _ _ _ _ h]

def ce7rec : ProviderEventRecord :=
  { orbit_event_id := none, provider_event_id := "e", title := "t", start := none,
    last_updated := none, tombstoned := false }

def ce7pids : List String := ["p", "q"]

/-- Provider `p` succeeds with one record, then a later refresh fails for
`p`. -/
def ce7Panels : Panels :=
  applyFetchFailure
    (beginRefresh ce7pids
      (applyFetchSuccess (applyFetchSuccess (beginRefresh ce7pids []) "p" [ce7rec]) "q" []))
    "p" "down"

/-- Counterexample to C7 as stated: after the failed refresh, provider `p`
still contributes its previously fetched record to the snapshot the group
computation runs over, while its error is reported. -/
theorem claim_provider_failure_counterexample :
    allRecords ce7pids ce7Panels = [("p", ce7rec)] ∧
    (mapGet ce7Panels "p").map (·.error) = some (some "down") ∧
    providerErrors ce7pids ce7Panels = ["down"] := by
  decide

/-- C7 (amended): a failed per-provider fetch records the error on the
panel of that provider, leaves every other panel untouched, and keeps the
previous data of the failed panel — so the snapshot the group computation
runs is unchanged by the failure; in particular a provider that had no
prior data contributes no records. -/
theorem claim_provider_failure_isolated (providerIds : List String) (ps : Panels)
    (pid msg : String) :
    ((mapGet (applyFetchFailure ps pid msg) pid).map (·.error) = some (some msg)) ∧
    (∀ pid2, pid2 ≠ pid →
      mapGet (applyFetchFailure ps pid msg) pid2 = mapGet ps pid2) ∧
    (allRecords providerIds (applyFetchFailure ps pid msg) = allRecords providerIds ps) ∧
    (panelData ps pid = [] →
      ∀ row ∈ allRecords providerIds (applyFetchFailure ps pid msg), row.1 ≠ pid) := by
  refine ⟨?_, ?_, ?_, ?_⟩
  · simp [applyFetchFailure, mapGet_mapSet_self]
  · intro pid2 h
    exact mapGet_mapSet_ne _ _ _ _ h
  · rw [allRecords, allRecords]
    have hfun : (fun id =>
        (panelData (applyFetchFailure ps pid msg) id).map (fun r => (id, r))) =
        (fun id => (panelData ps id).map (fun r => (id, r))) := by
      funext id
      rw [panelData_applyFetchFailure]
    rw [hfun]
  · intro hnil row hrow hpid
    rw [allRecords] at hrow
    obtain ⟨id, _, hr⟩ := List.mem_flatMap.mp hrow
    obtain ⟨r, hr2, heq⟩ := List.mem_map.mp hr
    have hid : id = pid := by
      rw [← hpid, ← heq]
    rw [hid, panelData_applyFetchFailure, hnil] at hr2
    exact absurd hr2 (List.not_mem_nil r)

/-- Witness for the amended C7 on the empty (first-load) panel state. -/
theorem claim_provider_failure_witness :
    ((mapGet (applyFetchFailure [] "p" "down") "p").map (·.error) = some (some "down")) ∧
    mapGet (applyFetchFailure [] "p" "down") "q" = mapGet ([] : Panels) "q" ∧
    allRecords ["p"] (applyFetchFailure [] "p" "down") = allRecords ["p"] ([] : Panels) ∧
    ∀ row ∈ allRecords ["p"] (applyFetchFailure [] "p" "down"), row.1 ≠ "p" := by
  have h := claim_provider_failure_isolated ["p"] ([] : Panels) "p" "down"
  exact ⟨h.1, h.2.1 "q" (by decide), h.2.2.1, h.2.2.2 rfl⟩

end Orbit
